import Mathlib

set_option maxRecDepth 10000

/-!
Shallow embedding of `Christmas_tree.py` (terminal Christmas-tree animation).

Python strings are modelled as `List Char`; Python ints as `Int` (or `Nat`
where the source value is provably nonnegative); fallible operations
(`random.randint` with an empty range, list indexing) return `Except String`.

The process-wide random source is modelled by two adversarial oracle
streams: `floats` for the outcomes of `random.random()`, and `nats` for the
draws that drive `random.choice` / `random.choices` / `random.randint`
(reduced modulo the size of the selection range, so every possible outcome
is reachable).  A `random.random()` outcome is a dyadic rational in `[0, 1)`
and every threshold the program compares it against (`0.05`, `0.3`) is a
multiple of `2^-56`, so outcomes are represented exactly as naturals scaled
by `2^56`; `Nat` nonnegativity mirrors `random.random() >= 0`.  A shared call counter `k` mirrors the fact
that all call sites consume from one process-wide generator in program order.
The two float literals the program compares `random.random()` against, and
the two float products it truncates (`width * 0.2`, `0.8 * (...)`), are
modelled exactly as IEEE-754 binary64 arithmetic, see `roundFloorScaled`.
-/

namespace Xmas

/-- Outcomes of the process-wide pseudo-random source (see module docstring);
`floats` values are scaled by `2^56`. -/
structure Rand where
  floats : Nat → Nat
  nats : Nat → Nat
  k : Nat

/-- One call of `random.random()` (result scaled by `2^56`). -/
def Rand.nextFloat (r : Rand) : Nat × Rand :=
  (r.floats r.k, { r with k := r.k + 1 })

/-- One integer draw consumed by `random.choice` / `random.choices` / `random.randint`. -/
def Rand.nextNat (r : Rand) : Nat × Rand :=
  (r.nats r.k, { r with k := r.k + 1 })

/-- `random.randint(lo, hi)`: raises `ValueError` when `hi < lo`, otherwise
returns a value in `[lo, hi]` (here: the adversarial draw reduced modulo the
size `hi - lo + 1` of the inclusive range). -/
def randint (lo hi : Int) (r : Rand) : Except String (Int × Rand) :=
  if hi < lo then .error "ValueError"
  else
    let (n, r1) := r.nextNat
    .ok (lo + (n : Int) % (hi - lo + 1), r1)

/-!
Exact model of the floating-point arithmetic the program performs.

`0.2`, `0.3`, `0.05` and `0.8` denote the binary64 values
`m / 2^54`, `(3*m/2) / 2^54`, `m / 2^56` and `m / 2^52` with
`m = 3602879701896397`.  A product `float * int` is the true rational
product rounded to 53 significant bits, round-half-to-even; `int(x)`
truncates toward zero.
-/

/-- Significand of the binary64 literals `0.2 = m / 2^54`, `0.05 = m / 2^56`
and `0.8 = m / 2^52`. -/
def dblMantissa : Nat := 3602879701896397

/-- The binary64 value of the literal `0.05` (default `snow_probability`),
scaled by `2^56`: `0.05 = 3602879701896397 / 2^56`. -/
def fl005 : Nat := 3602879701896397

/-- The binary64 value of the literal `0.3` (ornament lit threshold), scaled
by `2^56`: `0.3 = 5404319552844595 / 2^54 = 21617278211378380 / 2^56`. -/
def fl03 : Nat := 21617278211378380

/-- Bit length of a natural number, by structural recursion on a fuel
argument (`fuel = n` always suffices) so that it reduces in the kernel. -/
def bitLenAux : Nat → Nat → Nat
  | 0, _ => 0
  | fuel + 1, n => if n = 0 then 0 else bitLenAux fuel (n / 2) + 1

/-- Bit length of a natural number: `bitLen 0 = 0`, `2^(bitLen n - 1) ≤ n < 2^(bitLen n)`. -/
def bitLen (n : Nat) : Nat := bitLenAux n n

/-- `int(p / 2^shift)` where the rational `p / 2^shift` is first rounded to a
binary64 value (53 significant bits, round-half-to-even).  `bitLen p` is the
bit length of `p`, so `s` is how many low bits fall outside the significand. -/
def roundFloorScaled (p shift : Nat) : Nat :=
  let s := bitLen p - 53
  let q := p / 2 ^ s
  let r := p % 2 ^ s
  let q' := if 2 * r < 2 ^ s then q
            else if 2 ^ s < 2 * r then q + 1
            else if q % 2 = 0 then q else q + 1
  q' * 2 ^ s / 2 ^ shift

/-- `int(w * 0.2)` for a nonnegative Python int `w`
(`0.2 = dblMantissa / 2^54` in binary64). -/
def pyFloorMul02 (w : Nat) : Nat := roundFloorScaled (dblMantissa * w) 54

/-- `int(0.8 * n)` for a Python int `n` (`0.8 = dblMantissa / 2^52` in
binary64; `int` truncates toward zero, and rounding is sign-symmetric). -/
def pyTrunc08 (n : Int) : Int :=
  if 0 ≤ n then (roundFloorScaled (dblMantissa * n.toNat) 52 : Int)
  else -(roundFloorScaled (dblMantissa * (-n).toNat) 52 : Int)

/-!
ANSI escape strings of `class Colors`.  Rendered lines are `List Char`.
-/

/-- The escape character `"\033"`. -/
def ESC : Char := Char.ofNat 27

def GREEN : List Char := ESC :: "[92m".toList

def RED : List Char := ESC :: "[91m".toList

def YELLOW : List Char := ESC :: "[93m".toList

def BLUE : List Char := ESC :: "[94m".toList

def MAGENTA : List Char := ESC :: "[95m".toList

def CYAN : List Char := ESC :: "[96m".toList

def WHITE : List Char := ESC :: "[97m".toList

def BOLD : List Char := ESC :: "[1m".toList

def RESET : List Char := ESC :: "[0m".toList

def ORANGE : List Char := ESC :: "[38;5;208m".toList

def PINK : List Char := ESC :: "[38;5;205m".toList

def PURPLE : List Char := ESC :: "[38;5;135m".toList

def GOLD : List Char := ESC :: "[38;5;220m".toList

def LIME : List Char := ESC :: "[38;5;154m".toList

def TEAL : List Char := ESC :: "[38;5;51m".toList

def VIOLET : List Char := ESC :: "[38;5;99m".toList

def BROWN : List Char := ESC :: "[38;5;94m".toList

/-!
Glyph literals.  The source file stores each decorative glyph as a
three-character sequence (a mojibake rendering of the intended single
symbol): the star literal on line 128 is U+201A U+00F2 U+00D6, the ornament
literal on line 158 is U+201A U+00F3 U+00E8, the trunk literal on line 170
is U+201A U+00F1 U+00E0, and the fifth snow symbol on line 61 is
U+201A U+00C4 U+00A2.  They are embedded here byte-for-byte as they appear
in the file.
-/

/-- The star glyph literal of `draw_tree` (line 128). -/
def starGlyph : List Char := "‚òÖ".toList

/-- The ornament glyph literal of `draw_tree` (line 158/160). -/
def ornamentGlyph : List Char := "‚óè".toList

/-- The trunk glyph literal of `draw_tree` (line 170). -/
def trunkGlyph : List Char := "‚ñà".toList

/-- The fifth snow symbol of `draw_background` (line 61). -/
def snowBullet : List Char := "‚Ä¢".toList

/-!
`draw_background` (lines 57-72).
-/

/-- `snow_symbols = ["*", "+", ".", "o", "‚Ä¢"]`. -/
def snow_symbols : List (List Char) := [['*'], ['+'], ['.'], ['o'], snowBullet]

/-- `symbol_weights = [5, 2, 3, 1, 1]`. -/
def symbol_weights : List Nat := [5, 2, 3, 1, 1]

/-- `random.choices(snow_symbols, weights=symbol_weights)[0]` as a pure
selector: cumulative-weight selection driven by one draw reduced modulo the
total weight 12, so the residue classes realize the relative weights
5, 2, 3, 1, 1 (proved in `claim_C9_weights_lemma`). -/
def snowSymbolFor (n : Nat) : List Char :=
  let j := n % 12
  if j < 5 then ['*']
  else if j < 7 then ['+']
  else if j < 10 then ['.']
  else if j < 11 then ['o']
  else snowBullet

/-- The randomness-consuming wrapper of `snowSymbolFor`. -/
def chooseSnowSymbol (r : Rand) : List Char × Rand :=
  let (n, r1) := r.nextNat
  (snowSymbolFor n, r1)

/-- One position of the generator expression in `draw_background`:
`random.choices(...)[0] if (random.random() < snow_probability and snow) else " "`.
The float is drawn unconditionally (the comparison is evaluated first);
the symbol draw happens only on the snow branch.  `p` is the
`snow_probability` threshold scaled by `2^56`. -/
def snowCell (snow : Bool) (p : Nat) (r : Rand) : List Char × Rand :=
  let (u, r1) := r.nextFloat
  if u < p ∧ snow = true then chooseSnowSymbol r1 else ([' '], r1)

/-- The `length - 2` cells of the generator expression, left to right. -/
def snowCells (snow : Bool) (p : Nat) : Nat → Rand → List (List Char) × Rand
  | 0, r => ([], r)
  | n + 1, r =>
    let (c, r1) := snowCell snow p r
    let (cs, r2) := snowCells snow p n r1
    (c :: cs, r2)

/-- `draw_background(snow, terminal_width, max_width, snow_probability)`:
computes `length = max(0, (terminal_width - max_width) // 2)` (Python `//`
is floor division, `Int.fdiv`), then returns a space, `range(length - 2)`
generated cells (empty when `length < 2`, since Python `range` of a negative
bound is empty), and a space. -/
def draw_background (r : Rand) (snow : Bool) (terminal_width max_width : Int)
    (snow_probability : Nat) : List Char × Rand :=
  let length : Int := max 0 ((terminal_width - max_width).fdiv 2)
  let (cells, r1) := snowCells snow snow_probability (length - 2).toNat r
  (' ' :: cells.flatten ++ [' '], r1)

/-!
`create_tree` (lines 75-99).  Every integer in the function is provably
nonnegative (see `treeRow_start_lt_width` and `treeRow_spacing_pos` below),
so the rows are modelled over `Nat`.
-/

/-- Python `range(start, stop, step)` for `step ≥ 1` over naturals:
`max(0, ceil((stop - start) / step))` elements `start + step * j`.
(`Nat` subtraction makes the count 0 when `stop ≤ start`, as in Python.) -/
def rangeUp (start stop step : Nat) : List Nat :=
  (List.range ((stop - start + step - 1) / step)).map fun j => start + step * j

/-- Python `range(start, 0, -step)` for `step ≥ 1` over naturals:
`ceil(start / step)` elements `start - step * j`, each positive. -/
def rangeDown (start step : Nat) : List Nat :=
  (List.range ((start + step - 1) / step)).map fun j => start - step * j

/-- One iteration of the `create_tree` loop body.  Notes kept from the
source: the first assignment `spacing = width // num_ornaments` is dead
(overwritten before use, so it is omitted); the guard
`if num_ornaments > 0` is always true because of the `max(1, ...)`;
`ornament_probability = 0.2` appears only inside the two
`int(... * 0.2 ...)` expressions modelled exactly by `pyFloorMul02`. -/
def treeRow (i : Nat) : Nat × List Nat :=
  if i = 0 then (1, [])
  else
    let width := 1 + i * 2
    let center := width / 2
    let num_ornaments := max 1 (pyFloorMul02 width)
    let stagger := if 3 < i then pyFloorMul02 10 else 1
    let spacing := (width - 1) / (num_ornaments + 1)
    let start := if i % 2 = 0 then center + stagger else center
    (width, rangeUp start (width - 1) spacing ++ rangeDown start spacing)

/-- `create_tree(height)`: the loop appends one row per `i in range(height)`
and carries no state between iterations. -/
def create_tree (height : Nat) : List (Nat × List Nat) :=
  (List.range height).map treeRow

/-!
`draw_tree` (lines 113-172).
-/

/-- `random.choice(seq)`: uniform selection modelled by one draw reduced
modulo `seq.length`; the only call site passes the nonempty 12-color
palette, so the `getD` default is unreachable. -/
def pyChoice (l : List (List Char)) (r : Rand) : List Char × Rand :=
  let (n, r1) := r.nextNat
  (l.getD (n % l.length) [], r1)

/-- `ornament_colors` (lines 133-146). -/
def ornament_colors : List (List Char) :=
  [RED, BLUE, MAGENTA, CYAN, YELLOW, ORANGE, PINK, PURPLE, GOLD, LIME, TEAL, VIOLET]

/-- One iteration of the inner column loop of `draw_tree`: an ornament
position draws `random.random() > 0.3` (and, when lit, a color), any other
column is the fixed green foliage cell. -/
def treeCell (ornament_positions : List Nat) (i : Nat) (r : Rand) : List Char × Rand :=
  if i ∈ ornament_positions then
    let (u, r1) := r.nextFloat
    if fl03 < u then
      let (color, r2) := pyChoice ornament_colors r1
      (color ++ ornamentGlyph ++ RESET, r2)
    else
      (GREEN ++ ornamentGlyph ++ RESET, r1)
  else
    (GREEN ++ ['*'] ++ RESET, r)

/-- The cell list built by `for i in range(width)` (the Python `row` list
before `"".join(row)`), threading the random source left to right. -/
def treeCells (ornament_positions : List Nat) : List Nat → Rand → List (List Char) × Rand
  | [], r => ([], r)
  | i :: is, r =>
    let (c, r1) := treeCell ornament_positions i r
    let (cs, r2) := treeCells ornament_positions is r1
    (c :: cs, r2)

/-- The body lines built by `for row_num, (width, ornament_positions) in
enumerate(tree[1:], 1)`: each line is centering padding followed by the
joined cells. -/
def treeBodyRows (max_width : Nat) : List (Nat × List Nat) → Rand → List (List Char) × Rand
  | [], r => ([], r)
  | (width, ornament_positions) :: rows, r =>
    let padding := List.replicate ((max_width - width) / 2) ' '
    let (cells, r1) := treeCells ornament_positions (List.range width) r
    let (rest, r2) := treeBodyRows max_width rows r1
    ((padding ++ cells.flatten) :: rest, r2)

/-- `max(row[0] for row in tree)`.  Python `max` raises on an empty
sequence; the fold with base 0 coincides with it on every nonempty tree,
and theorems about `draw_tree` assume `tree ≠ []` where it matters. -/
def treeMaxWidth (tree : List (Nat × List Nat)) : Nat :=
  (tree.map Prod.fst).foldl max 0

/-- `draw_tree(tree, star_bright)` (lines 113-172): returns the rendered
lines (star line, one line per row of `tree[1:]`, `trunk_rows = 2` trunk
lines) and `max_width`, threading the random source. -/
def draw_tree (tree : List (Nat × List Nat)) (star_bright : Bool) (r : Rand) :
    (List (List Char) × Nat) × Rand :=
  let trunk_rows := 2
  let trunk_width := 1
  let max_width := treeMaxWidth tree
  let star_color := if star_bright then YELLOW ++ BOLD else YELLOW
  let star := star_color ++ starGlyph ++ RESET
  let star_padding := List.replicate ((max_width - 1) / 2) ' '
  let (body, r1) := treeBodyRows max_width tree.tail r
  let trunk_padding := List.replicate ((max_width - trunk_width) / 2) ' '
  let trunkLine := trunk_padding ++ BROWN ++ (List.replicate trunk_width trunkGlyph).flatten ++ RESET
  (((star_padding ++ star) :: body ++ List.replicate trunk_rows trunkLine, max_width), r1)

/-!
`animate_tree` (lines 175-250).  Terminal dimensions are re-read every
frame (`get_terminal_dimensions`), modelled by an oracle
`dims : Nat → Int × Int` giving `(terminal_width, terminal_height)` per
frame index.  `clear_screen`, the `print` calls and `time.sleep` have no
bearing on the computed frame content; the frame value is the list of lines
of `"\n".join(horison + drawing + message)`.
-/

/-- `light_freq = 5` (line 185). -/
def light_freq : Nat := 5

/-- `blink_state = frame % 3 == 0` (line 191). -/
def blink_state (frame : Nat) : Bool := frame % 3 == 0

/-- `star_bright = (frame // light_freq * 2) % 2 == 0` (line 192).  Python
`//`, `*`, `%` associate left, so this is `((frame // 5) * 2) % 2 == 0`. -/
def star_bright (frame : Nat) : Bool := (frame / light_freq * 2) % 2 == 0

/-- The loop-carried state of `animate_tree`: the random source, the cached
`tree_drawing` and `max_width` from the latest `draw_tree` call, and the
`stars` list generated at frame 0. -/
structure LoopState where
  rand : Rand
  tree_drawing : List (List Char)
  max_width : Nat
  stars : List (Int × Int)

/-- The `horison` list (lines 200-206): `horison_size` lines, each the
concatenation of two `draw_background(True, terminal_width, 0)` calls. -/
def horisonLines (terminal_width : Int) : Nat → Rand → List (List Char) × Rand
  | 0, r => ([], r)
  | n + 1, r =>
    let (b1, r1) := draw_background r true terminal_width 0 fl005
    let (b2, r2) := draw_background r1 true terminal_width 0 fl005
    let (rest, r3) := horisonLines terminal_width n r2
    ((b1 ++ b2) :: rest, r3)

/-- The star-position loop body (lines 211-214), `num_stars` times:
`line_index = randint(0, min(10, horison_size))`,
`char_index = randint(0, terminal_width)`.  `randint` raises `ValueError`
when its upper bound is below its lower bound (`horison_size < 0`). -/
def genStarList (horison_size terminal_width : Int) :
    Nat → Rand → Except String (List (Int × Int) × Rand)
  | 0, r => .ok ([], r)
  | n + 1, r => do
    let (line_index, r1) ← randint 0 (min 10 horison_size) r
    let (char_index, r2) ← randint 0 terminal_width r1
    let (rest, r3) ← genStarList horison_size terminal_width n r2
    .ok ((line_index, char_index) :: rest, r3)

/-- Star generation at frame 0 (lines 207-214): `num_stars = randint(1, 100)`
followed by `num_stars` position draws. -/
def genStars (horison_size terminal_width : Int) (r : Rand) :
    Except String (List (Int × Int) × Rand) := do
  let (num_stars, r1) ← randint 1 100 r
  genStarList horison_size terminal_width num_stars.toNat r1

/-- The star overlay loop (lines 216-223): each star rewrites
`horison[line_index]` by splicing a yellow `*` at `char_index` (Python
slicing is clamping, list indexing is not: `line_index >= len(horison)`
raises `IndexError`; a negative index would wrap in Python but cannot occur,
as `randint(0, ...)` results are nonnegative, so the model guards it). -/
def starOverlay (horison : List (List Char)) :
    List (Int × Int) → Except String (List (List Char))
  | [] => .ok horison
  | (line_index, char_index) :: rest =>
    if h : 0 ≤ line_index ∧ line_index.toNat < horison.length then
      let line := horison.get ⟨line_index.toNat, h.2⟩
      let spliced := line.take char_index.toNat ++ YELLOW ++ ['*'] ++ RESET ++
        line.drop (char_index.toNat + 1)
      starOverlay (horison.set line_index.toNat spliced) rest
    else .error "IndexError"

/-- The `drawing` list (lines 224-227): each cached tree line flanked on
both sides by one freshly drawn background (a single `draw_background` call
per line, reused left and right). -/
def treeWithBackground (terminal_width : Int) (max_width : Nat) :
    List (List Char) → Rand → List (List Char) × Rand
  | [], r => ([], r)
  | line :: rest, r =>
    let (background, r1) := draw_background r true terminal_width max_width fl005
    let (others, r2) := treeWithBackground terminal_width max_width rest r1
    ((background ++ line ++ background) :: others, r2)

/-- `message_text = "Merry Christmas!"` (line 229). -/
def message_text : List Char := "Merry Christmas!".toList

/-- The message line (lines 229-240): snow-free background on both sides of
the centered bold red greeting (`//` is floor division and Python string
repetition clamps a negative count to the empty string, hence `toNat`). -/
def messageLine (terminal_width : Int) (max_width : Nat) (r : Rand) : List Char × Rand :=
  let message_padding :=
    List.replicate (((max_width : Int) - (message_text.length : Int)).fdiv 2).toNat ' '
  let (background, r1) := draw_background r false terminal_width max_width fl005
  (background ++ message_padding ++ BOLD ++ RED ++ message_text ++ RESET ++ background, r1)

/-- One iteration of the frame loop (lines 188-246): regenerate the tree
rendering when `blink_state or frame == 0`, build the horison, generate the
stars exactly at frame 0 (otherwise keep the carried list), overlay them,
flank the tree lines and the message with backgrounds, and return the
printed lines together with the next loop state. -/
def runFrame (tree : List (Nat × List Nat)) (dims : Nat → Int × Int) (frame : Nat)
    (st : LoopState) : Except String (List (List Char) × LoopState) :=
  let terminal_width := (dims frame).1
  let terminal_height := (dims frame).2
  let tdr := if blink_state frame = true ∨ frame = 0
    then draw_tree tree (star_bright frame) st.rand
    else ((st.tree_drawing, st.max_width), st.rand)
  let tree_drawing := tdr.1.1
  let max_width := tdr.1.2
  let horison_size : Int := pyTrunc08 (terminal_height - (tree_drawing.length : Int))
  let hor := horisonLines terminal_width horison_size.toNat tdr.2
  let starsR : Except String (List (Int × Int) × Rand) :=
    if frame = 0 then genStars horison_size terminal_width hor.2
    else .ok (st.stars, hor.2)
  match starsR with
  | .error e => .error e
  | .ok (stars, r3) =>
    match starOverlay hor.1 stars with
    | .error e => .error e
    | .ok horisonFinal =>
      let dr := treeWithBackground terminal_width max_width tree_drawing r3
      let msg := messageLine terminal_width max_width dr.2
      .ok (horisonFinal ++ dr.1 ++ [msg.1], ⟨msg.2, tree_drawing, max_width, stars⟩)

/-- The frame loop over a list of frame indices, collecting the printed
frames; an uncaught exception aborts the run. -/
def runFrames (tree : List (Nat × List Nat)) (dims : Nat → Int × Int) :
    List Nat → LoopState → Except String (List (List (List Char)))
  | [], _ => .ok []
  | f :: fs, st =>
    match runFrame tree dims f st with
    | .error e => .error e
    | .ok (lines, st1) =>
      match runFrames tree dims fs st1 with
      | .error e => .error e
      | .ok rest => .ok (lines :: rest)

/-- `animate_tree(tree, duration, fps)`: `frame_delay = 1.0 / fps` raises
`ZeroDivisionError` for `fps == 0`; otherwise `frames = int(duration * fps)`
(exact for int arguments) and the loop runs `for frame in range(frames)`
(empty when `frames <= 0`).  The initial cache fields are placeholders:
frame 0 always regenerates both the tree drawing and the stars. -/
def animate_tree (tree : List (Nat × List Nat)) (dims : Nat → Int × Int) (r : Rand)
    (duration fps : Int) : Except String (List (List (List Char))) :=
  if fps = 0 then .error "ZeroDivisionError"
  else runFrames tree dims (List.range (duration * fps).toNat) ⟨r, [], 0, []⟩

/-!
Helper lemmas.
-/

lemma bitLenAux_zero (fuel : Nat) : bitLenAux fuel 0 = 0 := by
  cases fuel <;> simp [bitLenAux]

lemma bitLenAux_bounds :
    ∀ fuel n, n ≤ fuel → 0 < n →
      2 ^ (bitLenAux fuel n - 1) ≤ n ∧ n < 2 ^ (bitLenAux fuel n) := by
  intro fuel
  induction fuel with
  | zero => intro n h1 h2; omega
  | succ fuel ih =>
    intro n h1 h2
    rw [bitLenAux, if_neg (by omega)]
    rcases Nat.lt_or_ge n 2 with hn | hn
    · have hn1 : n = 1 := by omega
      subst hn1
      simp [bitLenAux_zero]
    · have hpos : 0 < n / 2 := Nat.div_pos (by omega) (by omega)
      have hle : n / 2 ≤ fuel := by
        have := Nat.div_lt_self h2 (by omega : 1 < 2)
        omega
      obtain ⟨hlo, hhi⟩ := ih (n / 2) hle hpos
      have hb : 1 ≤ bitLenAux fuel (n / 2) := by
        rcases Nat.eq_zero_or_pos (bitLenAux fuel (n / 2)) with h0 | h1'
        · rw [h0] at hhi; simp at hhi; omega
        · exact h1'
      constructor
      · have hpow : 2 ^ (bitLenAux fuel (n / 2) + 1 - 1) = 2 ^ (bitLenAux fuel (n / 2) - 1) * 2 := by
          rw [← pow_succ]
          congr 1
          omega
        have hmul : 2 ^ (bitLenAux fuel (n / 2) - 1) * 2 ≤ n / 2 * 2 :=
          Nat.mul_le_mul_right 2 hlo
        have hdm : n / 2 * 2 ≤ n := Nat.div_mul_le_self n 2
        omega
      · have hpow : 2 ^ (bitLenAux fuel (n / 2) + 1) = 2 * 2 ^ (bitLenAux fuel (n / 2)) := by
          rw [pow_succ]
          ring
        have hdm := Nat.div_add_mod n 2
        have hm2 : n % 2 < 2 := Nat.mod_lt n (by omega)
        omega

lemma two_pow_bitLen_pred_le {n : Nat} (h : 0 < n) : 2 ^ (bitLen n - 1) ≤ n :=
  (bitLenAux_bounds n n le_rfl h).1

/-- The rounding step never more than doubles `p`, so the rounded-and-floored
value is at most `2 * p / 2^shift`. -/
lemma roundFloorScaled_le (p shift : Nat) (hp : 0 < p) :
    roundFloorScaled p shift ≤ 2 * p / 2 ^ shift := by
  have h2s : 2 ^ (bitLen p - 53) ≤ p := by
    rcases le_or_lt (bitLen p) 53 with h | h
    · have hs0 : bitLen p - 53 = 0 := by omega
      rw [hs0]
      simpa using hp
    · calc 2 ^ (bitLen p - 53) ≤ 2 ^ (bitLen p - 1) :=
            Nat.pow_le_pow_right (by omega) (by omega)
        _ ≤ p := two_pow_bitLen_pred_le hp
  have key : ∀ q' : Nat, q' ≤ p / 2 ^ (bitLen p - 53) + 1 →
      q' * 2 ^ (bitLen p - 53) / 2 ^ shift ≤ 2 * p / 2 ^ shift := by
    intro q' hq'
    apply Nat.div_le_div_right
    calc q' * 2 ^ (bitLen p - 53)
        ≤ (p / 2 ^ (bitLen p - 53) + 1) * 2 ^ (bitLen p - 53) :=
          Nat.mul_le_mul_right _ hq'
      _ = p / 2 ^ (bitLen p - 53) * 2 ^ (bitLen p - 53) + 2 ^ (bitLen p - 53) := by ring
      _ ≤ p + p := Nat.add_le_add (Nat.div_mul_le_self _ _) h2s
      _ = 2 * p := by ring
  show (if 2 * (p % 2 ^ (bitLen p - 53)) < 2 ^ (bitLen p - 53)
        then p / 2 ^ (bitLen p - 53)
        else if 2 ^ (bitLen p - 53) < 2 * (p % 2 ^ (bitLen p - 53))
        then p / 2 ^ (bitLen p - 53) + 1
        else if p / 2 ^ (bitLen p - 53) % 2 = 0
        then p / 2 ^ (bitLen p - 53)
        else p / 2 ^ (bitLen p - 53) + 1) * 2 ^ (bitLen p - 53) / 2 ^ shift
      ≤ 2 * p / 2 ^ shift
  apply key
  split
  · exact Nat.le_succ _
  · split
    · exact le_rfl
    · split
      · exact Nat.le_succ _
      · exact le_rfl

lemma pyFloorMul02_le_half (w : Nat) : pyFloorMul02 w ≤ w / 2 := by
  rcases Nat.eq_zero_or_pos w with hw | hw
  · subst hw
    decide
  · have hp : 0 < dblMantissa * w := Nat.mul_pos (by norm_num [dblMantissa]) hw
    calc pyFloorMul02 w ≤ 2 * (dblMantissa * w) / 2 ^ 54 :=
          roundFloorScaled_le _ _ hp
      _ ≤ 2 ^ 53 * w / 2 ^ 54 := by
          apply Nat.div_le_div_right
          calc 2 * (dblMantissa * w) = 2 * dblMantissa * w := by ring
            _ ≤ 2 ^ 53 * w := Nat.mul_le_mul_right w (by norm_num [dblMantissa])
      _ = w / 2 := by
          rw [show (2 : Nat) ^ 54 = 2 ^ 53 * 2 by norm_num]
          exact Nat.mul_div_mul_left w 2 (by positivity)

/-- Every element of `rangeUp start stop step` is below `stop` (for a
positive step). -/
lemma rangeUp_lt {start stop step o : Nat} (hstep : 0 < step)
    (ho : o ∈ rangeUp start stop step) : o < stop := by
  simp only [rangeUp, List.mem_map, List.mem_range] at ho
  obtain ⟨j, hj, rfl⟩ := ho
  have h1 : (j + 1) * step ≤ stop - start + step - 1 :=
    (Nat.le_div_iff_mul_le hstep).mp hj
  have h2 : (j + 1) * step = step * j + step := by ring
  omega

/-- Every element of `rangeDown start step` is at most `start`. -/
lemma rangeDown_le {start step o : Nat} (ho : o ∈ rangeDown start step) :
    o ≤ start := by
  simp only [rangeDown, List.mem_map, List.mem_range] at ho
  obtain ⟨j, _, rfl⟩ := ho
  omega

/-- The stagger constant `int(0.2 * 10)` evaluates to 2. -/
lemma pyFloorMul02_ten : pyFloorMul02 10 = 2 := by decide

/-- The starting ornament offset of body row `i` (a proof-side abbreviation
for the value the `create_tree` loop computes). -/
def rowStart (i : Nat) : Nat :=
  if i % 2 = 0 then (1 + i * 2) / 2 + (if 3 < i then pyFloorMul02 10 else 1)
  else (1 + i * 2) / 2

/-- The ornament spacing of body row `i` (a proof-side abbreviation for the
value the `create_tree` loop computes). -/
def rowSpacing (i : Nat) : Nat :=
  (1 + i * 2 - 1) / (max 1 (pyFloorMul02 (1 + i * 2)) + 1)

/-- Unfolding of `treeRow` on a body row. -/
lemma treeRow_eq {i : Nat} (hi : 1 ≤ i) :
    treeRow i = (1 + i * 2,
      rangeUp (rowStart i) (1 + i * 2 - 1) (rowSpacing i) ++
        rangeDown (rowStart i) (rowSpacing i)) := by
  rw [treeRow, if_neg (by omega)]
  rfl

/-- For a body row the step of both Python ranges is positive, so the model
coincides with Python (a zero step would raise `ValueError`). -/
lemma treeRow_spacing_pos {i : Nat} (hi : 1 ≤ i) :
    1 ≤ rowSpacing i := by
  rw [rowSpacing]
  have hhalf := pyFloorMul02_le_half (1 + i * 2)
  have hdiv : (1 + i * 2) / 2 = i := by omega
  apply (Nat.one_le_div_iff (by omega)).mpr
  omega

/-- For a body row, the starting offset is inside the row. -/
lemma treeRow_start_lt_width {i : Nat} (hi : 1 ≤ i) :
    rowStart i < 1 + i * 2 := by
  rw [rowStart]
  have hdiv : (1 + i * 2) / 2 = i := by omega
  have hst : (if 3 < i then pyFloorMul02 10 else 1) ≤ 2 := by
    split
    · rw [pyFloorMul02_ten]
    · omega
  split
  · rename_i hpar
    have : 2 ≤ i := by omega
    omega
  · omega

/-- All ornament offsets of a body row lie inside the row. -/
lemma treeRow_offsets_lt {i : Nat} (hi : 1 ≤ i) :
    ∀ o ∈ (treeRow i).2, o < (treeRow i).1 := by
  intro o ho
  rw [treeRow_eq hi] at ho ⊢
  simp only [List.mem_append] at ho
  rcases ho with ho | ho
  · have := rangeUp_lt (treeRow_spacing_pos hi) ho
    simp only
    omega
  · have h1 := rangeDown_le ho
    have h2 := treeRow_start_lt_width hi
    simp only
    omega

/-- A fixed random source used for concrete evaluations: every draw is 0
(so `random.random()` reads as `0.0`, below every positive threshold). -/
def randConstZero : Rand := ⟨fun _ => 0, fun _ => 0, 0⟩

/-- A fixed random source whose float draws read as `1 - 2^-56` (above both
thresholds: no snow, ornaments always lit) and whose integer draws are 4. -/
def randHiFour : Rand := ⟨fun _ => 2 ^ 56 - 1, fun _ => 4, 0⟩

/-- A fixed random source whose float draws read as `1 - 2^-56` and whose
integer draws are 0. -/
def randHiZero : Rand := ⟨fun _ => 2 ^ 56 - 1, fun _ => 0, 0⟩

lemma snowSymbolFor_mem (n : Nat) : snowSymbolFor n ∈ snow_symbols := by
  rw [snowSymbolFor, snow_symbols]
  split
  · simp
  · split
    · simp
    · split
      · simp
      · split <;> simp

lemma snowSymbolFor_good (n : Nat) :
    snowSymbolFor n = snowBullet ∨ (snowSymbolFor n).length = 1 := by
  rw [snowSymbolFor]
  split
  · right; rfl
  · split
    · right; rfl
    · split
      · right; rfl
      · split
        · right; rfl
        · left; rfl

/-- Unfolding of `snowCell` with the float draw made explicit. -/
lemma snowCell_eq (snow : Bool) (p : Nat) (r : Rand) :
    snowCell snow p r =
      if r.floats r.k < p ∧ snow = true
      then (snowSymbolFor (r.nats (r.k + 1)), ⟨r.floats, r.nats, r.k + 2⟩)
      else ([' '], ⟨r.floats, r.nats, r.k + 1⟩) := by
  rw [snowCell]
  dsimp only [Rand.nextFloat]
  split
  · rw [chooseSnowSymbol]
    dsimp only [Rand.nextNat]
  · rfl

lemma snowCell_cases (snow : Bool) (p : Nat) (r : Rand) :
    (snowCell snow p r).1 = [' '] ∨ (snowCell snow p r).1 ∈ snow_symbols := by
  rw [snowCell_eq]
  split
  · right
    exact snowSymbolFor_mem _
  · left
    rfl

lemma snowCell_nosnow (snow : Bool) (p : Nat) (r : Rand)
    (h : snow = false ∨ p = 0) :
    snowCell snow p r = ([' '], ⟨r.floats, r.nats, r.k + 1⟩) := by
  rw [snowCell_eq]
  rcases h with h | h <;> subst h <;> rw [if_neg (by simp)]

/-- Unfolding of the successor case of `snowCells`. -/
lemma snowCells_succ (snow : Bool) (p : Nat) (n : Nat) (r : Rand) :
    snowCells snow p (n + 1) r =
      ((snowCell snow p r).1 :: (snowCells snow p n (snowCell snow p r).2).1,
        (snowCells snow p n (snowCell snow p r).2).2) := by
  rw [snowCells]

lemma snowCells_length (snow : Bool) (p : Nat) :
    ∀ (n : Nat) (r : Rand), ((snowCells snow p n r).1).length = n := by
  intro n
  induction n with
  | zero => intro r; rfl
  | succ n ih =>
    intro r
    rw [snowCells_succ]
    simp [ih]

lemma snowCells_cases (snow : Bool) (p : Nat) :
    ∀ (n : Nat) (r : Rand) (c : List Char), c ∈ (snowCells snow p n r).1 →
      c = [' '] ∨ c ∈ snow_symbols := by
  intro n
  induction n with
  | zero => intro r c hc; simp [snowCells] at hc
  | succ n ih =>
    intro r c hc
    rw [snowCells_succ] at hc
    simp only [List.mem_cons] at hc
    rcases hc with hc | hc
    · subst hc
      exact snowCell_cases snow p r
    · exact ih _ c hc

lemma snowCells_nosnow (snow : Bool) (p : Nat) (h : snow = false ∨ p = 0) :
    ∀ (n : Nat) (r : Rand), (snowCells snow p n r).1 = List.replicate n [' '] := by
  intro n
  induction n with
  | zero => intro r; rfl
  | succ n ih =>
    intro r
    rw [snowCells_succ, snowCell_nosnow snow p r h]
    dsimp only
    rw [ih]
    rfl

/-- A cell list whose members are the space cell or snow symbols flattens to
its length plus two extra characters per three-character bullet. -/
lemma flatten_length_count (cells : List (List Char))
    (h : ∀ c ∈ cells, c = snowBullet ∨ c.length = 1) :
    cells.flatten.length = cells.length + 2 * cells.count snowBullet := by
  induction cells with
  | nil => simp
  | cons c cs ih =>
    have hc := h c (by simp)
    have hcs := ih fun d hd => h d (by simp [hd])
    simp only [List.flatten_cons, List.length_append, List.count_cons, List.length_cons]
    rcases hc with hc | hc
    · subst hc
      have hb : snowBullet.length = 3 := by decide
      simp only [beq_self_eq_true, if_true]
      omega
    · have hne : (c == snowBullet) = false := by
        by_contra hb
        simp at hb
        rw [hb] at hc
        exact absurd hc (by decide)
      simp only [hne, Bool.false_eq_true, if_false]
      omega

lemma snowCells_good (snow : Bool) (p : Nat) (n : Nat) (r : Rand) :
    ∀ c ∈ (snowCells snow p n r).1, c = snowBullet ∨ c.length = 1 := by
  intro c hc
  rcases snowCells_cases snow p n r c hc with h | h
  · right; rw [h]; rfl
  · simp only [snow_symbols, List.mem_cons, List.mem_singleton, List.not_mem_nil,
      or_false] at h
    rcases h with h | h | h | h | h
    · right; rw [h]; rfl
    · right; rw [h]; rfl
    · right; rw [h]; rfl
    · right; rw [h]; rfl
    · left; rw [h]

/-- Unfolding of `draw_background` in terms of its generated cells. -/
lemma draw_background_eq (r : Rand) (snow : Bool) (tw mw : Int) (p : Nat) :
    draw_background r snow tw mw p =
      (' ' :: (snowCells snow p ((max 0 ((tw - mw).fdiv 2) - 2).toNat) r).1.flatten ++ [' '],
        (snowCells snow p ((max 0 ((tw - mw).fdiv 2) - 2).toNat) r).2) := by
  rw [draw_background]

/-- Claim C2, amended: `draw_background` returns a string of length
`max(2, max(0, (terminal_width - max_width) // 2))` plus two extra
characters for every position at which the fifth snow symbol (a
three-character mojibake sequence in the source) was chosen, and its leading
and trailing characters are forced to a space.  (The claimed length
`max(0, (terminal_width - max_width) // 2)` fails both when that value is
below 2 — the two boundary spaces are always emitted — and when the fifth
snow symbol is drawn.) -/
theorem claim_C2_amended (r : Rand) (snow : Bool) (terminal_width max_width : Int)
    (snow_probability : Nat) :
    ((draw_background r snow terminal_width max_width snow_probability).1).length
      = max 2 (max 0 ((terminal_width - max_width).fdiv 2)).toNat
        + 2 * ((snowCells snow snow_probability
            ((max 0 ((terminal_width - max_width).fdiv 2) - 2).toNat) r).1.count snowBullet) ∧
    ((draw_background r snow terminal_width max_width snow_probability).1).head? = some ' ' ∧
    ((draw_background r snow terminal_width max_width snow_probability).1).getLast? = some ' ' := by
  rw [draw_background_eq]
  dsimp only
  refine ⟨?_, rfl, ?_⟩
  · have h1 := flatten_length_count _
      (snowCells_good snow snow_probability
        ((max 0 ((terminal_width - max_width).fdiv 2) - 2).toNat) r)
    have h2 := snowCells_length snow snow_probability
      ((max 0 ((terminal_width - max_width).fdiv 2) - 2).toNat) r
    simp only [List.length_cons, List.length_append, List.length_nil, h1, h2]
    omega
  · show ((' ' :: (snowCells snow snow_probability
        ((max 0 ((terminal_width - max_width).fdiv 2) - 2).toNat) r).1.flatten) ++ [' ']).getLast?
      = some ' '
    exact List.getLast?_concat _

/-- Claim C2, counterexample to the claim as stated: with
`terminal_width = 1` and `max_width = 0` the claimed length is
`max(0, (1 - 0) // 2) = 0`, but the returned string is the two forced
boundary spaces, of length 2. -/
theorem claim_C2_counterexample :
    ¬(((draw_background randConstZero true 1 0 fl005).1).length
        = (max 0 (((1 : Int) - 0).fdiv 2)).toNat) := by
  decide

/-- A fixed random source whose float draws are 0 (every snow test passes)
and whose integer draws are 11 (selecting the fifth snow symbol). -/
def randEleven : Rand := ⟨fun _ => 0, fun _ => 11, 0⟩

/-- Claim C9: the code deviates from the claim because the fifth snow
symbol in the source is not the single bullet `•` but the three-character
mojibake sequence `‚Ä¢`: when it is drawn, the result contains the
character `‚` (U+201A), which is neither a space nor one of the five
claimed glyphs `{*, +, ., o, •}`.  (The remaining content of the claim holds
at the granularity of the generated cells: see `snowCells_cases`,
`snowCells_nosnow` and `claim_C9_weights_lemma` below.) -/
theorem claim_C9_mojibake :
    '‚' ∈ (draw_background randEleven true 10 0 fl005).1 ∧
    '‚' ∉ [' ', '*', '+', '.', 'o', '•'] := by
  decide

/-- The residue classes of the modelled `random.choices` selector realize
the relative weights 5, 2, 3, 1, 1 of the five snow symbols. -/
lemma claim_C9_weights_lemma :
    ∀ pr ∈ snow_symbols.zip symbol_weights,
      ((List.range 12).countP fun j => snowSymbolFor j == pr.1) = pr.2 := by
  decide

/-- Claim C4: for all heights `h ≥ 1`, `create_tree h` returns exactly `h`
rows; row 0 is `(1, [])` (width 1, no ornament offsets); for every `i > 0`
row `i` has width `1 + 2 * i` and every ornament offset lies within
`[0, width)` (offsets are naturals, hence nonnegative).  Determinism in `h`
alone is inherent: `create_tree` is a pure function of `h` and consumes no
randomness. -/
theorem claim_C4 (h : Nat) (hh : 1 ≤ h) :
    (create_tree h).length = h ∧
    (create_tree h).get? 0 = some (1, []) ∧
    ∀ i, 1 ≤ i → i < h → ∃ offsets,
      (create_tree h).get? i = some (1 + 2 * i, offsets) ∧
      ∀ o ∈ offsets, o < 1 + 2 * i := by
  refine ⟨by simp [create_tree], ?_, ?_⟩
  · rw [create_tree, List.get?_map, List.get?_range (by omega)]
    rfl
  · intro i h1 h2
    refine ⟨(treeRow i).2, ?_, ?_⟩
    · rw [create_tree, List.get?_map, List.get?_range h2]
      have hrow : treeRow i = (1 + 2 * i, (treeRow i).2) := by
        rw [treeRow_eq h1]
        rw [Nat.mul_comm]
      simp only [Option.map_some']
      rw [hrow]
    · intro o ho
      have := treeRow_offsets_lt h1 o ho
      have hw : (treeRow i).1 = 1 + 2 * i := by
        rw [treeRow_eq h1, Nat.mul_comm]
      omega

/-- Claim C4 witness at the height `main` uses (`create_tree(17)`). -/
theorem claim_C4_witness :
    1 ≤ 17 ∧ (create_tree 17).length = 17 ∧ (create_tree 17).get? 0 = some (1, []) :=
  ⟨by decide, (claim_C4 17 (by decide)).1, (claim_C4 17 (by decide)).2.1⟩

/-- Claim C1 (code bug): `star_bright = (frame // light_freq * 2) % 2 == 0`
evaluates to `True` at every frame index, because `(frame // 5) * 2` is
always even.  Star brightness therefore never toggles and never takes the
value `False` over any run, contradicting the claimed independent
modulo-period toggle (and the script docstring feature list, "pulsing
star").  `draw_tree` does select the star color from the flag, but the flag
is constant. -/
theorem claim_C1_star_bright_constant : ∀ frame : Nat, star_bright frame = true := by
  intro frame
  simp [star_bright, Nat.mul_mod_left]

/-- Claim C10: `create_tree 1` is exactly the star row `(1, [])`, and
`draw_tree` on it renders exactly one star line, zero body lines and the
two trunk lines, consumes no randomness, and no ornament glyph occurs
anywhere in the output. -/
theorem claim_C10 (b : Bool) (r : Rand) :
    create_tree 1 = [(1, [])] ∧
    draw_tree (create_tree 1) b r =
      ((((if b then YELLOW ++ BOLD else YELLOW) ++ starGlyph ++ RESET) ::
          [BROWN ++ trunkGlyph ++ RESET, BROWN ++ trunkGlyph ++ RESET], 1), r) ∧
    ∀ line ∈ (draw_tree (create_tree 1) b r).1.1, ¬ ornamentGlyph <:+: line := by
  have h2 : draw_tree (create_tree 1) b r =
      ((((if b then YELLOW ++ BOLD else YELLOW) ++ starGlyph ++ RESET) ::
          [BROWN ++ trunkGlyph ++ RESET, BROWN ++ trunkGlyph ++ RESET], 1), r) := by
    cases b <;> rfl
  refine ⟨by decide, h2, ?_⟩
  intro line hline
  rw [h2] at hline
  dsimp only at hline
  simp only [List.mem_cons, List.not_mem_nil, or_false] at hline
  rcases hline with hl | hl | hl <;> subst hl <;> cases b <;> decide

/-!
Lemmas for `draw_tree` (claim C8).
-/

/-- The star line `draw_tree` emits (lines 127-130). -/
def starLineOf (max_width : Nat) (star_bright : Bool) : List Char :=
  List.replicate ((max_width - 1) / 2) ' ' ++
    ((if star_bright then YELLOW ++ BOLD else YELLOW) ++ starGlyph ++ RESET)

/-- The trunk line `draw_tree` emits (lines 167-170), with `trunk_width = 1`. -/
def trunkLineOf (max_width : Nat) : List Char :=
  List.replicate ((max_width - 1) / 2) ' ' ++ BROWN ++
    (List.replicate 1 trunkGlyph).flatten ++ RESET

lemma treeCell_foliage (pos : List Nat) (i : Nat) (r : Rand) (h : i ∉ pos) :
    treeCell pos i r = (GREEN ++ ['*'] ++ RESET, r) := by
  rw [treeCell, if_neg h]

/-- Unfolding of the cons case of `treeCells`. -/
lemma treeCells_cons (pos : List Nat) (i : Nat) (is : List Nat) (r : Rand) :
    treeCells pos (i :: is) r =
      ((treeCell pos i r).1 :: (treeCells pos is (treeCell pos i r).2).1,
        (treeCells pos is (treeCell pos i r).2).2) := by
  rw [treeCells]

lemma treeCells_length (pos : List Nat) :
    ∀ (l : List Nat) (r : Rand), ((treeCells pos l r).1).length = l.length := by
  intro l
  induction l with
  | nil => intro r; rfl
  | cons i is ih =>
    intro r
    rw [treeCells_cons]
    simp [ih]

/-- At a non-ornament column the rendered cell is the fixed green foliage
glyph, for every random-source state. -/
lemma treeCells_get_foliage (pos : List Nat) :
    ∀ (l : List Nat) (r : Rand) (j i : Nat), l.get? j = some i → i ∉ pos →
      ((treeCells pos l r).1).get? j = some (GREEN ++ ['*'] ++ RESET) := by
  intro l
  induction l with
  | nil => intro r j i hj _; simp at hj
  | cons a as ih =>
    intro r j i hj hmem
    rw [treeCells_cons]
    cases j with
    | zero =>
      have ha : a = i := by
        simp only [List.get?] at hj
        exact Option.some_injective _ hj
      subst ha
      rw [treeCell_foliage pos a _ hmem]
      rfl
    | succ j =>
      simp only [List.get?] at hj ⊢
      exact ih _ j i hj hmem

/-- Unfolding of the cons case of `treeBodyRows`. -/
lemma treeBodyRows_cons (mw width : Nat) (pos : List Nat)
    (rows : List (Nat × List Nat)) (r : Rand) :
    treeBodyRows mw ((width, pos) :: rows) r =
      ((List.replicate ((mw - width) / 2) ' ' ++
          (treeCells pos (List.range width) r).1.flatten) ::
          (treeBodyRows mw rows (treeCells pos (List.range width) r).2).1,
        (treeBodyRows mw rows (treeCells pos (List.range width) r).2).2) := by
  rw [treeBodyRows]

lemma treeBodyRows_length (mw : Nat) :
    ∀ (rows : List (Nat × List Nat)) (r : Rand),
      ((treeBodyRows mw rows r).1).length = rows.length := by
  intro rows
  induction rows with
  | nil => intro r; rfl
  | cons wp rows ih =>
    intro r
    rcases wp with ⟨width, pos⟩
    rw [treeBodyRows_cons]
    simp [ih]

/-- Unfolding of `draw_tree` into its star line, body lines and trunk lines. -/
lemma draw_tree_eq (tree : List (Nat × List Nat)) (b : Bool) (r : Rand) :
    draw_tree tree b r =
      ((starLineOf (treeMaxWidth tree) b ::
          ((treeBodyRows (treeMaxWidth tree) tree.tail r).1 ++
            List.replicate 2 (trunkLineOf (treeMaxWidth tree))),
        treeMaxWidth tree),
        (treeBodyRows (treeMaxWidth tree) tree.tail r).2) := by
  rw [draw_tree]
  rcases h : treeBodyRows (treeMaxWidth tree) tree.tail r with ⟨body, r1⟩
  rfl

lemma draw_tree_length (tree : List (Nat × List Nat)) (b : Bool) (r : Rand) :
    ((draw_tree tree b r).1.1).length = 1 + tree.tail.length + 2 := by
  rw [draw_tree_eq]
  dsimp only
  simp [treeBodyRows_length]
  omega

lemma draw_tree_drop (tree : List (Nat × List Nat)) (b : Bool) (r : Rand) :
    ((draw_tree tree b r).1.1).drop (1 + tree.tail.length) =
      List.replicate 2 (trunkLineOf (treeMaxWidth tree)) := by
  rw [draw_tree_eq]
  dsimp only
  rw [show 1 + tree.tail.length = tree.tail.length + 1 by omega]
  rw [List.drop_succ_cons]
  rw [show tree.tail.length
      = ((treeBodyRows (treeMaxWidth tree) tree.tail r).1).length
    from (treeBodyRows_length _ _ _).symm]
  exact List.drop_left _ _

/-- Claim C8: for a fixed (nonempty) tree geometry, any two invocations of
`draw_tree` — with any star-brightness flags and any random outcomes —
produce the same number of lines; every non-ornament column of every body
row renders the fixed green foliage cell under every random-source state
(hence identically in both runs); the trunk lines are identical in both
runs; and the star line is determined by the geometry and the brightness
flag alone, so only ornament cells and star brightness can differ. -/
theorem claim_C8 (tree : List (Nat × List Nat)) (htree : tree ≠ [])
    (b1 b2 : Bool) (r1 r2 : Rand) :
    ((draw_tree tree b1 r1).1.1).length = ((draw_tree tree b2 r2).1.1).length ∧
    (∀ wp ∈ tree, ∀ (r : Rand) (i : Nat), i < wp.1 → i ∉ wp.2 →
      ((treeCells wp.2 (List.range wp.1) r).1).get? i = some (GREEN ++ ['*'] ++ RESET)) ∧
    ((draw_tree tree b1 r1).1.1).drop (1 + tree.tail.length)
      = ((draw_tree tree b2 r2).1.1).drop (1 + tree.tail.length) ∧
    ((draw_tree tree b1 r1).1.1).get? 0 = some (starLineOf (treeMaxWidth tree) b1) := by
  refine ⟨?_, ?_, ?_, ?_⟩
  · rw [draw_tree_length, draw_tree_length]
  · intro wp _ r i hi hmem
    exact treeCells_get_foliage wp.2 (List.range wp.1) r i i (List.get?_range hi) hmem
  · rw [draw_tree_drop, draw_tree_drop]
  · rw [draw_tree_eq]
    rfl

/-- Claim C8 witness: the two concrete renderings of `create_tree 5` (one
bright, one dim, with different random sources) have equal line counts. -/
theorem claim_C8_witness :
    create_tree 5 ≠ [] ∧
    ((draw_tree (create_tree 5) true randConstZero).1.1).length
      = ((draw_tree (create_tree 5) false randHiFour).1.1).length :=
  ⟨by decide, (claim_C8 (create_tree 5) (by decide) true false randConstZero randHiFour).1⟩

/-- Claim C10 witness: the star line of the concrete rendering contains no
ornament glyph. -/
theorem claim_C10_witness :
    ¬ ornamentGlyph <:+: (YELLOW ++ BOLD ++ starGlyph ++ RESET) :=
  (claim_C10 true randConstZero).2.2 _ (by decide)

/-!
Lemmas and claims for the animation loop.
-/

lemma blink_state_iff (f : Nat) : blink_state f = true ↔ f % 3 = 0 := by
  simp [blink_state]

/-- Extractor used by witnesses to name the successful result of a frame. -/
def okOf (e : Except String (List (List Char) × LoopState)) : List (List Char) × LoopState :=
  match e with
  | .ok v => v
  | .error _ => ([], ⟨randConstZero, [], 0, []⟩)

/-- Extractor used by witnesses to name the successful result of a run. -/
def okFrames (e : Except String (List (List (List Char)))) : List (List (List Char)) :=
  match e with
  | .ok v => v
  | .error _ => []

/-- Claim C5: the cached tree rendering is regenerated only on the first
frame or at a `blink_state` transition (the code's condition is
`blink_state or frame == 0`, and when `blink_state` holds at `frame ≥ 1`
the previous frame's `blink_state` was false, i.e. the flag transitioned);
and on every later frame at which `blink_state` equals the previous frame's
value, `runFrame` passes the cached tree lines and width through unchanged —
the previous rendering is reused verbatim. -/
theorem claim_C5 (frame : Nat) :
    ((blink_state frame = true ∨ frame = 0) →
      frame = 0 ∨ blink_state frame ≠ blink_state (frame - 1)) ∧
    (1 ≤ frame → blink_state frame = blink_state (frame - 1) →
      ∀ (tree : List (Nat × List Nat)) (dims : Nat → Int × Int) (st : LoopState)
        (lines : List (List Char)) (st1 : LoopState),
        runFrame tree dims frame st = .ok (lines, st1) →
        st1.tree_drawing = st.tree_drawing ∧ st1.max_width = st.max_width) := by
  constructor
  · intro h
    rcases Nat.eq_zero_or_pos frame with h0 | h0
    · exact Or.inl h0
    · right
      have hb : blink_state frame = true := by
        rcases h with h | h
        · exact h
        · omega
      have h3 : frame % 3 = 0 := (blink_state_iff frame).mp hb
      have h4 : blink_state (frame - 1) = false := by
        rw [← Bool.not_eq_true, blink_state_iff]
        omega
      rw [hb, h4]
      simp
  · intro h1 h2 tree dims st lines st1 hrun
    have hb : blink_state frame = false := by
      by_contra hb
      rw [Bool.not_eq_false] at hb
      have h3 : frame % 3 = 0 := (blink_state_iff _).mp hb
      have h5 : blink_state (frame - 1) = true := by rw [← h2, hb]
      have h4 : (frame - 1) % 3 = 0 := (blink_state_iff _).mp h5
      omega
    have hreg : ¬(blink_state frame = true ∨ frame = 0) := by
      rw [hb]
      simp
      omega
    simp only [runFrame] at hrun
    rw [if_neg hreg, if_neg (by omega : ¬frame = 0)] at hrun
    split at hrun
    · exact absurd hrun (by simp)
    · split at hrun
      · exact absurd hrun (by simp)
      · simp only [Except.ok.injEq, Prod.mk.injEq] at hrun
        rw [← hrun.2]
        exact ⟨rfl, rfl⟩

/-- Claim C5 witness at frame 2 (no blink transition from frame 1): the
cached tree lines pass through a concrete successful frame unchanged. -/
theorem claim_C5_witness :
    1 ≤ 2 ∧
    (okOf (runFrame (create_tree 1) (fun _ => (0, 0)) 2
        ⟨randConstZero, [], 0, []⟩)).2.tree_drawing = [] := by
  refine ⟨by decide, ?_⟩
  have h := (claim_C5 2).2 (by decide) (by decide) (create_tree 1) (fun _ => (0, 0))
    ⟨randConstZero, [], 0, []⟩
    (okOf (runFrame (create_tree 1) (fun _ => (0, 0)) 2 ⟨randConstZero, [], 0, []⟩)).1
    (okOf (runFrame (create_tree 1) (fun _ => (0, 0)) 2 ⟨randConstZero, [], 0, []⟩)).2
    (by rfl)
  exact h.1

/-- Claim C7: the starfield is generated exactly once, at frame 0 — the
frame-0 step ignores whatever star list the incoming state carries (so its
result cannot depend on it) — and every later successful frame passes the
carried star list through `runFrame` unchanged; the overlay reads it without
modifying the state. -/
theorem claim_C7 :
    (∀ (tree : List (Nat × List Nat)) (dims : Nat → Int × Int) (r : Rand)
        (td : List (List Char)) (mw : Nat) (s0 s1 : List (Int × Int)),
      runFrame tree dims 0 ⟨r, td, mw, s0⟩ = runFrame tree dims 0 ⟨r, td, mw, s1⟩) ∧
    (∀ frame, 1 ≤ frame →
      ∀ (tree : List (Nat × List Nat)) (dims : Nat → Int × Int) (st : LoopState)
        (lines : List (List Char)) (st1 : LoopState),
        runFrame tree dims frame st = .ok (lines, st1) → st1.stars = st.stars) := by
  constructor
  · intro tree dims r td mw s0 s1
    rfl
  · intro frame hf tree dims st lines st1 hrun
    simp only [runFrame] at hrun
    rw [if_neg (by omega : ¬frame = 0)] at hrun
    split at hrun
    · exact absurd hrun (by simp)
    · rename_i stars r3 heq
      split at hrun
      · exact absurd hrun (by simp)
      · simp only [Except.ok.injEq, Prod.mk.injEq] at heq hrun
        rw [← hrun.2]
        exact heq.1.symm

/-- Claim C7 witness at frame 1: a concrete successful frame leaves the
carried (empty) star list unchanged. -/
theorem claim_C7_witness :
    1 ≤ 1 ∧
    (okOf (runFrame (create_tree 1) (fun _ => (0, 0)) 1
        ⟨randConstZero, [], 0, []⟩)).2.stars = [] := by
  refine ⟨by decide, ?_⟩
  exact claim_C7.2 1 (by decide) (create_tree 1) (fun _ => (0, 0))
    ⟨randConstZero, [], 0, []⟩
    (okOf (runFrame (create_tree 1) (fun _ => (0, 0)) 1 ⟨randConstZero, [], 0, []⟩)).1
    (okOf (runFrame (create_tree 1) (fun _ => (0, 0)) 1 ⟨randConstZero, [], 0, []⟩)).2
    (by rfl)

lemma runFrames_length (tree : List (Nat × List Nat)) (dims : Nat → Int × Int) :
    ∀ (fs : List Nat) (st : LoopState) (out : List (List (List Char))),
      runFrames tree dims fs st = .ok out → out.length = fs.length := by
  intro fs
  induction fs with
  | nil =>
    intro st out h
    simp only [runFrames, Except.ok.injEq] at h
    rw [← h]
    rfl
  | cons f fs ih =>
    intro st out h
    rw [runFrames] at h
    split at h
    · exact absurd h (by simp)
    · rename_i lines st1 heq
      split at h
      · exact absurd h (by simp)
      · rename_i rest hrest
        simp only [Except.ok.injEq] at h
        rw [← h]
        simp only [List.length_cons]
        rw [ih st1 rest hrest]

/-- Claim C6, amended with `0 ≤ duration`: for every integer
`duration ≥ 0` and `fps > 0`, an uninterrupted (error-free) run of the
animation loop prints exactly `floor(duration * fps) = duration * fps`
frames.  (For negative `duration` the Python loop `range(int(duration*fps))`
is empty, so the claim as stated — which asks for a negative iteration
count — fails; see the counterexample.) -/
theorem claim_C6_amended (duration fps : Int) (tree : List (Nat × List Nat))
    (dims : Nat → Int × Int) (r : Rand)
    (hd : 0 ≤ duration) (hf : 0 < fps) (frames : List (List (List Char)))
    (h : animate_tree tree dims r duration fps = .ok frames) :
    (frames.length : Int) = duration * fps := by
  rw [animate_tree, if_neg (by omega)] at h
  rw [runFrames_length tree dims _ _ _ h, List.length_range]
  exact Int.toNat_of_nonneg (mul_nonneg hd (le_of_lt hf))

/-- Claim C6, counterexample to the claim as stated: with `duration = -1`
and `fps = 1` the loop body never runs (zero frames), but
`floor(duration * fps) = -1`. -/
theorem claim_C6_counterexample :
    animate_tree (create_tree 1) (fun _ => (4, 5)) randHiZero (-1) 1 = .ok [] ∧
    ¬((([] : List (List (List Char))).length : Int) = -1 * 1) := by
  constructor
  · rfl
  · decide

/-- Claim C6 witness: the example of the claim, `duration = 2`, `fps = 4`,
yields exactly 8 frames on a concrete error-free run. -/
theorem claim_C6_witness :
    ((okFrames (animate_tree (create_tree 1) (fun _ => (4, 5)) randHiZero 2 4)).length : Int)
      = 2 * 4 :=
  claim_C6_amended 2 4 (create_tree 1) (fun _ => (4, 5)) randHiZero
    (by decide) (by decide) _ (by rfl)

/-- Claim C3 (code bug): with the default tree (`create_tree 17`, whose
rendering is 19 lines) and a classic 80×24 terminal,
`horison_size = int(0.8 * (24 - 19)) = 4`, yet frame 0 draws
`line_index = randint(0, min(10, horison_size))`, whose inclusive upper
bound is 4; the star overlay then evaluates `horison[4]` on the 4-element
horison list and raises an uncaught `IndexError` (only `KeyboardInterrupt`
is caught).  So a non-interrupt failure of the frame loop is reachable for
plausible terminal dimensions and random outcomes, refuting the claim. -/
theorem claim_C3_index_error :
    runFrame (create_tree 17) (fun _ => (80, 24)) 0 ⟨randHiFour, [], 0, []⟩
      = .error "IndexError" := by
  rfl

end Xmas
